import Mathlib

/-!
Verification of the usms portal client: shallow embedding of the session
manager (expiry detection, login signature extraction, ASP.NET hidden state
store, retry policy) and of the consumption cache (freshness policy, series
merge, earliest-date backoff search, update gate), with theorems settling
the specification claims against these definitions.

Conventions: Python dicts become association lists with a first-match
lookup; timestamps and date arithmetic use rationals measured in minutes
(for the cache policy) or days (for the earliest-date search); fallible
code returns Except.
-/

/-- Option fallback: the first operand where it is some, the second
otherwise.  Used to state lookup laws of the dict operations. -/
def optOr {α : Type} (a b : Option α) : Option α :=
  match a with
  | some v => some v
  | none => b

/-- The pattern occurs as a contiguous run of the text: at each position,
either the pattern starts here or the search moves one character on. -/
def listContains (pat : List Char) : List Char → Bool
  | [] => pat.isEmpty
  | c :: rest => pat.isPrefixOf (c :: rest) || listContains pat rest

/-- Model of the Python substring test `pattern in text`. -/
def strContains (text pattern : String) : Bool :=
  listContains pattern.data text.data

/-- Worker of `pySplit`, structurally recursive on fuel: scan the text,
cutting wherever the separator starts; `acc` holds the current piece
reversed. -/
def pySplitGo (sep : List Char) : Nat → List Char → List Char → List (List Char)
  | _, [], acc => [acc.reverse]
  | 0, text, acc => [acc.reverse ++ text]
  | fuel + 1, c :: rest, acc =>
      if sep.isPrefixOf (c :: rest) then
        acc.reverse :: pySplitGo sep fuel (List.drop sep.length (c :: rest)) []
      else
        pySplitGo sep fuel rest (c :: acc)

/-- Model of Python `text.split(sep)` for a non-empty separator: the
pieces of the text between non-overlapping occurrences of the separator,
scanned left to right. -/
def pySplit (text sep : String) : List String :=
  (pySplitGo sep.data text.data.length text.data []).map String.mk

/-! ## core/auth.py: expiry detection (`_is_expired_sync`) -/

/-- An HTTP response as the expiry detector sees it: status code and the
full decoded body (`response.read().decode("utf-8")`). -/
structure HTTPResponse where
  statusCode : Nat
  body : String
deriving DecidableEq

/-- The marker looked for in redirect bodies (`"SessionExpire" in response_text`). -/
def sessionExpiredMarker : String := "SessionExpire"

/-- The text looked for in 200 bodies. -/
def expiredSessionText : String := "Your Session Has Expired, Please Login Again."

/-- `USMSClientAuthMixin._is_expired_sync` (core/auth.py lines 36-52): the
response signals an expired session when it is a 302 whose body contains
the session-expired marker, or a 200 whose body contains the expired
session text. -/
def is_expired_sync (response : HTTPResponse) : Bool :=
  if response.statusCode == 302 && strContains response.body sessionExpiredMarker then
    true
  else if response.statusCode == 200 && strContains response.body expiredSessionText then
    true
  else
    false

/-! ## core/state_manager.py: the ASP.NET hidden state store -/

/-- Form data and the ASP state store: a Python `dict[str, str]`,
modelled as an association list read through a first-match lookup. -/
abbrev FormData := List (String × String)

/-- First-match lookup, the reading discipline of a Python dict whose keys
are unique. -/
def dictLookup : FormData → String → Option String
  | [], _ => none
  | p :: rest, k => if p.1 = k then some p.2 else dictLookup rest k

/-- Python `key in dict`. -/
def dictContains (d : FormData) (k : String) : Bool :=
  (dictLookup d k).isSome

/-- Python `d[k] = v`: overwrite the present binding, else append. -/
def dictInsert (d : FormData) (k v : String) : FormData :=
  if dictContains d k then
    d.map (fun p => if p.1 = k then (k, v) else p)
  else
    d ++ [(k, v)]

/-- One hidden input element of a parsed page: its `name` and its `value`
attribute (`none` when the attribute is absent). -/
structure HiddenInput where
  name : String
  value : Option String

/-- Python truthiness of `hidden_input.value`: false for `None` and for
the empty string. -/
def inputValueTruthy : Option String → Bool
  | none => false
  | some s => s ≠ ""

/-- `USMSASPStateMixin._extract_asp_state` (core/state_manager.py lines
16-24).  The page argument is `none` when `lxml.html.fromstring` raises:
the exception is caught and the prior state returned untouched.  On a
parsed page, every hidden input with a truthy value is upserted into the
state, in document order. -/
def extract_asp_state (state : FormData) (page : Option (List HiddenInput)) : FormData :=
  match page with
  | none => state
  | some inputs =>
      inputs.foldl
        (fun st inp =>
          match inp.value with
          | none => st
          | some v => if v = "" then st else dictInsert st inp.name v)
        state

/-- The last truthy value a page supplies for a key, in document order;
`none` when the page supplies no truthy value for it.  Characterises what
`extract_asp_state` stores at that key. -/
def lastHiddenValue : List HiddenInput → String → Option String
  | [], _ => none
  | inp :: rest, k =>
      optOr (lastHiddenValue rest k)
        (if inp.name = k then
          (match inp.value with
           | none => none
           | some v => if v = "" then none else some v)
         else none)

/-- `USMSASPStateMixin._inject_asp_state` (core/state_manager.py lines
26-35): every stored pair is written into the request data only where the
caller did not already set that key. -/
def inject_asp_state (state : FormData) (data : FormData) : FormData :=
  state.foldl (fun d kv => if dictContains d kv.1 then d else d ++ [kv]) data

/-! ## services/meter.py: update gate (`is_update_due`) and refresh -/

/-- `refresh_interval = timedelta(seconds=60 * 15)`, in minutes. -/
def refreshIntervalMinutes : ℚ := 15

/-- `update_interval = timedelta(seconds=60 * 60)`, in minutes. -/
def updateIntervalMinutes : ℚ := 60

/-- `BaseUSMSMeter.is_update_due` (services/meter.py lines 405-439): true
only when more than the update interval has passed since the portal last
updated the meter and more than the refresh interval has passed since the
last local refresh attempt.  All times in minutes. -/
def is_update_due (now lastUpdate lastRefresh : ℚ) : Bool :=
  if now - lastUpdate > updateIntervalMinutes then
    if now - lastRefresh > refreshIntervalMinutes then
      true
    else
      false
  else
    false

/-- The two timestamps `refresh_data` touches. -/
structure MeterTimes where
  lastUpdate : ℚ
  lastRefresh : ℚ

/-- The success path of `USMSMeter.refresh_data` (services/sync/meter.py
lines 178-198): after `fetch_info` succeeds, `last_refresh` is set to the
current time; `last_update` is replaced only when the freshly fetched
timestamp is newer.  Returns the updated timestamps and whether new data
was adopted. -/
def refresh_data (m : MeterTimes) (now fetchedLastUpdate : ℚ) : MeterTimes × Bool :=
  if fetchedLastUpdate > m.lastUpdate then
    ({ lastUpdate := fetchedLastUpdate, lastRefresh := now }, true)
  else
    ({ lastUpdate := m.lastUpdate, lastRefresh := now }, false)

/-! ## services/meter.py: cache freshness (`get_hourly_consumptions`,
`get_daily_consumptions`) and the fetch guard of services/sync/meter.py -/

/-- One cached consumption record: its value and the time it was last
checked against the portal (minutes). -/
structure ConsumptionRecord where
  value : ℚ
  lastChecked : ℚ

/-- `timedelta(days=3)` in minutes, the hourly staleness cutoff. -/
def hourlyStaleCutoffMinutes : ℚ := 3 * 24 * 60

/-- `timedelta(days=34)` in minutes, the daily staleness cutoff. -/
def dailyStaleCutoffMinutes : ℚ := 34 * 24 * 60

/-- `day_consumption["last_checked"].min()`: the smallest lastChecked of a
non-empty slice (the `[]` case never arises behind the emptiness guard). -/
def minLastChecked : List ConsumptionRecord → ℚ
  | [] => 0
  | r :: rest => rest.foldl (fun m x => min m x.lastChecked) r.lastChecked

/-- `BaseUSMSMeter.get_hourly_consumptions` (services/meter.py lines
274-296), applied to the cached slice for the requested date: return the
slice when it is non-empty and either it was checked within the refresh
interval or the requested date lies beyond the 3-day cutoff; otherwise
return an empty series. -/
def get_hourly_consumptions (daySlice : List ConsumptionRecord) (now date : ℚ) :
    List ConsumptionRecord :=
  if !daySlice.isEmpty then
    if now - minLastChecked daySlice < refreshIntervalMinutes
        ∨ now - date > hourlyStaleCutoffMinutes then
      daySlice
    else
      []
  else
    []

/-- `BaseUSMSMeter.get_daily_consumptions` (services/meter.py lines
299-322), applied to the cached slice for the requested month: same shape
with the 34-day cutoff. -/
def get_daily_consumptions (monthSlice : List ConsumptionRecord) (now date : ℚ) :
    List ConsumptionRecord :=
  if !monthSlice.isEmpty then
    if now - minLastChecked monthSlice < refreshIntervalMinutes
        ∨ now - date > dailyStaleCutoffMinutes then
      monthSlice
    else
      []
  else
    []

/-- The guard at the top of `USMSMeter.fetch_hourly_consumptions`
(services/sync/meter.py lines 49-57): the cached slice is returned, and no
network fetch performed, exactly when `get_hourly_consumptions` returns a
non-empty series. -/
def fetch_hourly_uses_cache (daySlice : List ConsumptionRecord) (now date : ℚ) : Bool :=
  !(get_hourly_consumptions daySlice now date).isEmpty

/-- The guard at the top of `USMSMeter.fetch_daily_consumptions`
(services/sync/meter.py lines 94-101). -/
def fetch_daily_uses_cache (monthSlice : List ConsumptionRecord) (now date : ℚ) : Bool :=
  !(get_daily_consumptions monthSlice now date).isEmpty

/-! ## services/sync/meter.py: merging fetched data into the cache -/

/-- A consumption series at the granularity the merge acts on: period key
(hour of day, or day) mapped to a value.  Presence of a key models a
non-null cell of the pandas frame. -/
abbrev ConsumptionSeries := List (Int × ℚ)

/-- First-match lookup in a series. -/
def seriesLookup : ConsumptionSeries → Int → Option ℚ
  | [], _ => none
  | p :: rest, k => if p.1 = k then some p.2 else seriesLookup rest k

/-- pandas `a.combine_first(b)`: the union of both indexes, taking the
value of `a` wherever `a` has one and filling the gaps from `b`. -/
def combine_first (a b : ConsumptionSeries) : ConsumptionSeries :=
  a ++ b.filter (fun p => (seriesLookup a p.1).isNone)

/-- The merge line of `USMSMeter.fetch_hourly_consumptions` and
`fetch_daily_consumptions` (services/sync/meter.py lines 88 and 128):
`self.cache = fetched.combine_first(self.cache)` - the freshly fetched
frame is the caller of `combine_first`. -/
def merge_fetched_into_cache (cache fetched : ConsumptionSeries) : ConsumptionSeries :=
  combine_first fetched cache

/-- Modelled from the spec: the merge the specification describes, where
for overlapping keys the existing cached value is kept and new data only
fills gaps (first-write-wins on overlap). -/
def spec_merge_into_cache (cache fetched : ConsumptionSeries) : ConsumptionSeries :=
  combine_first cache fetched

/-! ## services/meter.py: report page parsers -/

/-- A consumptions report page as the parsers see it: the text of the
`pcErr_lblErrMsg` span (`none` when the span is absent from the page) and
the report table rows (`none` when the `ASPxPageControl1_grid_DXMainTable`
table is absent). -/
structure ReportPage where
  errSpan : Option String
  table : Option (List (String × ℚ))

/-- `BaseUSMSMeter.parse_consumptions_error` (services/meter.py lines
257-272): reads the error span text; when the span is missing,
`None.text_content()` raises AttributeError, modelled as an error. -/
def parse_consumptions_error (page : ReportPage) : Except Unit String :=
  match page.errSpan with
  | none => Except.error ()
  | some msg => Except.ok msg

/-- `BaseUSMSMeter.parse_hourly_consumptions` (services/meter.py lines
324-355): the error message only drives logging; a missing table yields an
empty series; rows are returned as parsed. -/
def parse_hourly_consumptions (page : ReportPage) : Except Unit (List (String × ℚ)) :=
  match parse_consumptions_error page with
  | Except.error e => Except.error e
  | Except.ok _ =>
      match page.table with
      | none => Except.ok []
      | some rows => Except.ok rows

/-- `BaseUSMSMeter.parse_daily_consumptions` (services/meter.py lines
357-381): a non-empty error message yields an empty result; otherwise the
table is read with no `None` guard, so a missing table raises
AttributeError (`table.findall` on `None`), modelled as an error. -/
def parse_daily_consumptions (page : ReportPage) : Except Unit (List (String × ℚ)) :=
  match parse_consumptions_error page with
  | Except.error e => Except.error e
  | Except.ok msg =>
      if msg ≠ "" then
        Except.ok []
      else
        match page.table with
        | none => Except.error ()
        | some rows => Except.ok rows

/-! ## core/auth.py: signature extraction in `_authenticate_sync` -/

/-- The Python expression `url.split("Sig=")[-1].split("&")[-1]` of
core/auth.py line 109: text after the last `Sig=`, then its last
`&`-separated segment. -/
def urlSig (url : String) : String :=
  (pySplit ((pySplit url "Sig=").getLastD "") "&").getLastD ""

/-- The history loop of `USMSClientAuthMixin._authenticate_sync`
(core/auth.py lines 106-112): walk the redirect history in order, and on
the first hop whose URL contains `Sig=` extract `urlSig` of it and stop. -/
def extractSig : List String → Option String
  | [] => none
  | url :: rest =>
      if strContains url "Sig=" then some (urlSig url) else extractSig rest

/-- Lines 114-115 of core/auth.py: a missing signature raises
`USMSLoginError`; otherwise the extracted signature is used. -/
def authenticate_sig (history : List String) : Except Unit String :=
  match extractSig history with
  | none => Except.error ()
  | some sig => Except.ok sig

/-- Modelled from the spec: the value of the `Sig` query parameter of a
URL, that is the text between the first `Sig=` and the next `&`. -/
def specSigOfUrl (url : String) : Option String :=
  if strContains url "Sig=" then
    some ((pySplit ((pySplit url "Sig=").getD 1 "") "&").getD 0 "")
  else
    none

/-- Modelled from the spec: extraction from the last redirect hop whose
URL contains the `Sig=` parameter, taking that parameter value. -/
def specExtractSig (history : List String) : Option String :=
  (history.reverse.find? (fun u => strContains u "Sig=")).bind specSigOfUrl

/-! ## Retry policy on get/post (modelled from the spec) -/

/-- Modelled from the spec: the total attempt budget of the retry policy
on `get` and `post` (the retry loop itself is not among the repository
files here; `USMSClient.get`/`post` of core/client.py only issue a single
exchange, so the policy is taken from the specification text). -/
def attemptBudget : Nat := 3

/-- Modelled from the spec: attempt the request; when the response is
detected as expired, run the login flow and repeat; stop with a login
error once the budget is exhausted.  `responses i` is the response the
portal would give to attempt number `i`; the result carries the total
number of attempts made. -/
def run_with_retry (responses : Nat → HTTPResponse) : Nat → Nat → Except Unit (HTTPResponse × Nat)
  | 0, _ => Except.error ()
  | budget + 1, attemptIdx =>
      let response := responses attemptIdx
      if is_expired_sync response then
        run_with_retry responses budget (attemptIdx + 1)
      else
        Except.ok (response, attemptIdx + 1)

/-- Modelled from the spec: a `get`/`post` under the retry policy, capped
at `attemptBudget` total attempts. -/
def session_request (responses : Nat → HTTPResponse) : Except Unit (HTTPResponse × Nat) :=
  run_with_retry responses attemptBudget 0

/-! ## services/sync/meter.py: the earliest-date backoff search -/

/-- The probe loop of `USMSMeter.find_earliest_consumption_date`
(services/sync/meter.py lines 252-270), with explicit fuel.  `hasData d`
is true when `fetch_hourly_consumptions` at probe date `d` returns a
non-empty series; dates and steps are rationals measured in days, exactly
as the Python float `step` evolves (`step *= 2`, `step /= 4`). -/
def findLoop (hasData : ℚ → Bool) : Nat → ℚ → ℚ → Option ℚ
  | 0, _, _ => none
  | fuel + 1, date, step =>
      if hasData date then
        findLoop hasData fuel (date - 2 * step) (2 * step)
      else if step = 1 then
        some (date + step)
      else
        findLoop hasData fuel (date + step) (step / 4)

/-- The two meter fields the earliest-date search reads and writes: the
recorded result, and the minimum index of the hourly cache (`none` when
the cache is empty). -/
structure MeterSearchState where
  earliestConsumptionDate : Option ℚ
  hourlyMinDate : Option ℚ
deriving DecidableEq

/-- `USMSMeter.find_earliest_consumption_date` (services/sync/meter.py
lines 231-270): return the recorded date when one exists; otherwise start
the probe loop with step 1 from the earliest cached date, or from today
when the cache is empty, and record the result on the meter. -/
def find_earliest_consumption_date (hasData : ℚ → Bool) (fuel : Nat)
    (meter : MeterSearchState) (today : ℚ) : Option (ℚ × MeterSearchState) :=
  match meter.earliestConsumptionDate with
  | some d => some (d, meter)
  | none =>
      let start :=
        match meter.hourlyMinDate with
        | none => today
        | some d => d
      match findLoop hasData fuel start 1 with
      | none => none
      | some d => some (d, { meter with earliestConsumptionDate := some d })

/-- The data oracle of a portal whose hourly history runs from day `E`
onward: a probe is non-empty exactly when the date is at least `E`. -/
def thresholdData (E : ℚ) : ℚ → Bool :=
  fun d => decide (E ≤ d)

/-! ## Helper lemmas -/

theorem optOr_none_right {α : Type} (a : Option α) : optOr a none = a := by
  cases a <;> rfl

theorem optOr_assoc {α : Type} (a b c : Option α) :
    optOr (optOr a b) c = optOr a (optOr b c) := by
  cases a <;> rfl

theorem optOr_isSome_right {α : Type} (a b : Option α) (h : b.isSome = true) :
    (optOr a b).isSome = true := by
  cases a <;> simp [optOr, h]

theorem dictLookup_append (d1 d2 : FormData) (k : String) :
    dictLookup (d1 ++ d2) k = optOr (dictLookup d1 k) (dictLookup d2 k) := by
  induction d1 with
  | nil => simp [dictLookup, optOr]
  | cons p rest ih =>
      by_cases h : p.1 = k <;> simp [dictLookup, h, ih, optOr]

theorem dictLookup_mapReplace (d : FormData) (k v x : String) :
    dictLookup (d.map (fun p => if p.1 = k then (k, v) else p)) x =
      if k = x then (if dictContains d k then some v else none) else dictLookup d x := by
  induction d with
  | nil => by_cases h : k = x <;> simp [dictLookup, dictContains, h]
  | cons p rest ih =>
      by_cases hp : p.1 = k <;> by_cases hx : p.1 = x <;> by_cases hkx : k = x <;>
        simp_all [dictLookup, dictContains]

theorem dictLookup_insert (d : FormData) (k v x : String) :
    dictLookup (dictInsert d k v) x = if k = x then some v else dictLookup d x := by
  by_cases hc : dictContains d k
  · simp [dictInsert, hc, dictLookup_mapReplace]
  · have hnone : dictLookup d k = none := by
      rcases h : dictLookup d k with _ | w
      · rfl
      · exact absurd (by simp [dictContains, h]) hc
    by_cases hx : k = x
    · subst hx
      simp [dictInsert, hc, dictLookup_append, hnone, dictLookup, optOr]
    · simp [dictInsert, hc, dictLookup_append, dictLookup, hx, optOr_none_right]

theorem inject_lookup (state : FormData) : ∀ data : FormData, ∀ k : String,
    dictLookup (inject_asp_state state data) k = optOr (dictLookup data k) (dictLookup state k) := by
  induction state with
  | nil => intro data k; simp [inject_asp_state, dictLookup, optOr_none_right]
  | cons kv rest ih =>
      intro data k
      have hstep : inject_asp_state (kv :: rest) data =
          inject_asp_state rest (if dictContains data kv.1 then data else data ++ [kv]) := by
        simp [inject_asp_state]
      rw [hstep, ih]
      by_cases hc : dictContains data kv.1
      · simp only [if_pos hc]
        by_cases hk : kv.1 = k
        · rcases h : dictLookup data k with _ | w
          · rw [dictContains, hk, h] at hc
            simp at hc
          · simp [dictLookup, hk, optOr, h]
        · simp [dictLookup, hk]
      · simp only [if_neg hc, dictLookup_append, optOr_assoc]
        by_cases hk : kv.1 = k
        · subst hk
          have hnone : dictLookup data kv.1 = none := by
            rcases h : dictLookup data kv.1 with _ | w
            · rfl
            · exact absurd (by simp [dictContains, h]) hc
          simp [dictLookup, hnone, optOr]
        · simp [dictLookup, hk, optOr]

theorem extract_lookup (inputs : List HiddenInput) : ∀ st : FormData, ∀ k : String,
    dictLookup (extract_asp_state st (some inputs)) k =
      optOr (lastHiddenValue inputs k) (dictLookup st k) := by
  induction inputs with
  | nil => intro st k; simp [extract_asp_state, lastHiddenValue, optOr]
  | cons inp rest ih =>
      intro st k
      have hstep : extract_asp_state st (some (inp :: rest)) =
          extract_asp_state
            (match inp.value with
             | none => st
             | some v => if v = "" then st else dictInsert st inp.name v)
            (some rest) := by
        simp [extract_asp_state]
      rw [hstep, ih]
      have hsuff :
          dictLookup
            (match inp.value with
             | none => st
             | some v => if v = "" then st else dictInsert st inp.name v) k =
          optOr
            (if inp.name = k then
              (match inp.value with
               | none => none
               | some v => if v = "" then none else some v)
             else none)
            (dictLookup st k) := by
        rcases hv : inp.value with _ | v
        · simp [optOr, ite_self]
        · by_cases he : v = ""
          · simp [he, optOr, ite_self]
          · by_cases hk : inp.name = k
            · simp [he, hk, dictLookup_insert, optOr]
            · simp [he, hk, dictLookup_insert, optOr]
      rw [hsuff, lastHiddenValue, ← optOr_assoc]

/-! ## Claim theorems -/

/-- Claim C2: the expiry detector returns true exactly when the response
is a 302 whose full body contains the session-expired marker, or a 200
whose full body contains the expired-session text; in particular a 200
body containing the text is detected and a 200 body without it is not,
whatever the body. -/
theorem is_expired_sync_iff :
    (∀ r : HTTPResponse, is_expired_sync r = true ↔
      ((r.statusCode = 302 ∧ strContains r.body sessionExpiredMarker = true) ∨
       (r.statusCode = 200 ∧ strContains r.body expiredSessionText = true)))
    ∧ (∀ body : String, strContains body expiredSessionText = true →
        is_expired_sync ⟨200, body⟩ = true)
    ∧ (∀ body : String, strContains body expiredSessionText = false →
        is_expired_sync ⟨200, body⟩ = false) := by
  have main : ∀ r : HTTPResponse, is_expired_sync r = true ↔
      ((r.statusCode = 302 ∧ strContains r.body sessionExpiredMarker = true) ∨
       (r.statusCode = 200 ∧ strContains r.body expiredSessionText = true)) := by
    intro r
    rcases r with ⟨s, b⟩
    by_cases h302 : s = 302 <;> by_cases h200 : s = 200 <;>
      cases h1 : strContains b sessionExpiredMarker <;>
      cases h2 : strContains b expiredSessionText <;>
      simp_all [is_expired_sync]
  refine ⟨main, ?_, ?_⟩
  · intro body h
    exact (main ⟨200, body⟩).2 (Or.inr ⟨rfl, h⟩)
  · intro body h
    rcases hb : is_expired_sync ⟨200, body⟩ with _ | _
    · rfl
    · rcases (main ⟨200, body⟩).1 hb with ⟨h3, _⟩ | ⟨_, h4⟩
      · exact absurd h3 (by norm_num)
      · rw [h] at h4; exact absurd h4 (by simp)

/-- Claim C10: the update gate is true exactly when more than 60 minutes
have passed since the portal last updated the meter and more than 15
minutes since the last local refresh attempt; it is false when either
threshold is not exceeded, and false immediately after any successful
refresh, since `refresh_data` sets the last refresh time to now. -/
theorem is_update_due_spec :
    (∀ now lastUpdate lastRefresh : ℚ,
      is_update_due now lastUpdate lastRefresh = true ↔
        (now - lastUpdate > updateIntervalMinutes ∧
         now - lastRefresh > refreshIntervalMinutes))
    ∧ (∀ now lastUpdate lastRefresh : ℚ,
        (¬ now - lastUpdate > updateIntervalMinutes ∨
         ¬ now - lastRefresh > refreshIntervalMinutes) →
        is_update_due now lastUpdate lastRefresh = false)
    ∧ (∀ m : MeterTimes, ∀ now fetchedLastUpdate : ℚ,
        is_update_due now ((refresh_data m now fetchedLastUpdate).1.lastUpdate)
          ((refresh_data m now fetchedLastUpdate).1.lastRefresh) = false) := by
  have main : ∀ now lastUpdate lastRefresh : ℚ,
      is_update_due now lastUpdate lastRefresh = true ↔
        (now - lastUpdate > updateIntervalMinutes ∧
         now - lastRefresh > refreshIntervalMinutes) := by
    intro now lu lr
    by_cases h1 : now - lu > updateIntervalMinutes <;>
      by_cases h2 : now - lr > refreshIntervalMinutes <;>
      simp [is_update_due, h1, h2]
  refine ⟨main, ?_, ?_⟩
  · intro now lu lr h
    rcases hb : is_update_due now lu lr with _ | _
    · rfl
    · rcases (main now lu lr).1 hb with ⟨h1, h2⟩
      rcases h with h | h
      · exact absurd h1 h
      · exact absurd h2 h
  · intro m now f
    have hrefresh : (refresh_data m now f).1.lastRefresh = now := by
      by_cases h : f > m.lastUpdate <;> simp [refresh_data, h]
    rcases hb : is_update_due now (refresh_data m now f).1.lastUpdate
        (refresh_data m now f).1.lastRefresh with _ | _
    · rfl
    · rcases (main _ _ _).1 hb with ⟨_, h2⟩
      rw [hrefresh, sub_self] at h2
      exact absurd h2 (by norm_num [refreshIntervalMinutes])

/-- Claim C8: applying the stored ASP state to request data inserts a
stored value only at keys the caller did not set, keeps every caller
pair unchanged, and the result contains every stored key; this holds for
every state of the store. -/
theorem inject_asp_state_spec :
    (∀ state data : FormData, ∀ k : String,
      dictLookup (inject_asp_state state data) k =
        optOr (dictLookup data k) (dictLookup state k))
    ∧ (∀ state data : FormData, ∀ k : String,
        dictContains state k = true →
        dictContains (inject_asp_state state data) k = true) := by
  refine ⟨inject_lookup, ?_⟩
  intro state data k h
  have := inject_lookup state data k
  simp only [dictContains] at h ⊢
  rw [this]
  exact optOr_isSome_right _ _ h


/-- Claim C7: the ASP state store never deletes a present key and only
overwrites it with a value the newer response supplies for that key (the
lookup after a merge is the last truthy page value for the key, falling
back to the prior stored value); merging an unparseable page leaves the
whole prior state unchanged. -/
theorem extract_asp_state_invariants :
    (∀ st : FormData, extract_asp_state st none = st)
    ∧ (∀ st : FormData, ∀ inputs : List HiddenInput, ∀ k : String,
        dictLookup (extract_asp_state st (some inputs)) k =
          optOr (lastHiddenValue inputs k) (dictLookup st k))
    ∧ (∀ st : FormData, ∀ page : Option (List HiddenInput), ∀ k : String,
        (dictLookup st k).isSome = true →
        (dictLookup (extract_asp_state st page) k).isSome = true) := by
  refine ⟨fun st => rfl, fun st inputs k => extract_lookup inputs st k, ?_⟩
  intro st page k h
  rcases page with _ | inputs
  · exact h
  · rw [extract_lookup]
    exact optOr_isSome_right _ _ h

/-- Claim C6: the consumption fetcher returns the cached slice with no
network fetch exactly when the cached slice for the period is non-empty
and either its last check lies within the 15-minute refresh interval or
the requested period is older than the staleness cutoff (3 days hourly,
34 days daily); and in that case the value returned is the cached slice
itself. -/
theorem get_consumptions_cache_iff :
    (∀ daySlice : List ConsumptionRecord, ∀ now date : ℚ,
      fetch_hourly_uses_cache daySlice now date = true ↔
        (daySlice ≠ [] ∧
          (now - minLastChecked daySlice < refreshIntervalMinutes ∨
           now - date > hourlyStaleCutoffMinutes)))
    ∧ (∀ daySlice : List ConsumptionRecord, ∀ now date : ℚ,
        fetch_hourly_uses_cache daySlice now date = true →
        get_hourly_consumptions daySlice now date = daySlice)
    ∧ (∀ monthSlice : List ConsumptionRecord, ∀ now date : ℚ,
        fetch_daily_uses_cache monthSlice now date = true ↔
          (monthSlice ≠ [] ∧
            (now - minLastChecked monthSlice < refreshIntervalMinutes ∨
             now - date > dailyStaleCutoffMinutes)))
    ∧ (∀ monthSlice : List ConsumptionRecord, ∀ now date : ℚ,
        fetch_daily_uses_cache monthSlice now date = true →
        get_daily_consumptions monthSlice now date = monthSlice) := by
  refine ⟨?_, ?_, ?_, ?_⟩
  · intro slice now date
    rcases slice with _ | ⟨r, rest⟩
    · simp [fetch_hourly_uses_cache, get_hourly_consumptions]
    · by_cases hc : now - minLastChecked (r :: rest) < refreshIntervalMinutes
          ∨ now - date > hourlyStaleCutoffMinutes <;>
        simp [fetch_hourly_uses_cache, get_hourly_consumptions, hc]
  · intro slice now date h
    rcases slice with _ | ⟨r, rest⟩
    · simp [fetch_hourly_uses_cache, get_hourly_consumptions] at h
    · by_cases hc : now - minLastChecked (r :: rest) < refreshIntervalMinutes
          ∨ now - date > hourlyStaleCutoffMinutes
      · simp [get_hourly_consumptions, hc]
      · simp [fetch_hourly_uses_cache, get_hourly_consumptions, hc] at h
  · intro slice now date
    rcases slice with _ | ⟨r, rest⟩
    · simp [fetch_daily_uses_cache, get_daily_consumptions]
    · by_cases hc : now - minLastChecked (r :: rest) < refreshIntervalMinutes
          ∨ now - date > dailyStaleCutoffMinutes <;>
        simp [fetch_daily_uses_cache, get_daily_consumptions, hc]
  · intro slice now date h
    rcases slice with _ | ⟨r, rest⟩
    · simp [fetch_daily_uses_cache, get_daily_consumptions] at h
    · by_cases hc : now - minLastChecked (r :: rest) < refreshIntervalMinutes
          ∨ now - date > dailyStaleCutoffMinutes
      · simp [get_daily_consumptions, hc]
      · simp [fetch_daily_uses_cache, get_daily_consumptions, hc] at h

theorem seriesLookup_append (a b : ConsumptionSeries) (k : Int) :
    seriesLookup (a ++ b) k = optOr (seriesLookup a k) (seriesLookup b k) := by
  induction a with
  | nil => simp [seriesLookup, optOr]
  | cons p rest ih =>
      by_cases h : p.1 = k <;> simp [seriesLookup, h, ih, optOr]

theorem seriesLookup_filter_isNone (a : ConsumptionSeries) (k : Int)
    (h : seriesLookup a k = none) :
    ∀ b : ConsumptionSeries,
      seriesLookup (b.filter (fun p => (seriesLookup a p.1).isNone)) k = seriesLookup b k := by
  intro b
  induction b with
  | nil => rfl
  | cons q rest ih =>
      by_cases hq : q.1 = k
      · have hnone : (seriesLookup a q.1).isNone = true := by rw [hq, h]; rfl
        simp [List.filter_cons, seriesLookup, hq, hnone, h]
      · by_cases hkeep : (seriesLookup a q.1).isNone = true <;>
          simp [List.filter_cons, seriesLookup, hq, hkeep, ih]

theorem combine_first_lookup (a b : ConsumptionSeries) (k : Int) :
    seriesLookup (combine_first a b) k = optOr (seriesLookup a k) (seriesLookup b k) := by
  rw [combine_first, seriesLookup_append]
  rcases h : seriesLookup a k with _ | v
  · rw [seriesLookup_filter_isNone a k h b]
  · rfl

/-- Claim C1 counterexample: the cache holds value 1 at key 0, the fetch
supplies value 2 at the same key, and after the fetch-merge the cache
holds the new value 2, not the existing cached value - so a key already
present does not keep its cached value. -/
theorem fetch_merge_cached_value_not_kept :
    seriesLookup (merge_fetched_into_cache [((0 : Int), (1 : ℚ))] [((0 : Int), (2 : ℚ))]) 0 ≠
      seriesLookup [((0 : Int), (1 : ℚ))] 0 := by
  simp [merge_fetched_into_cache, combine_first, seriesLookup]

/-- Claim C1 (amended): the fetch-merge
`cache = fetched.combine_first(cache)` keeps, per key, the newly fetched
value wherever the fetch supplies one and falls back to the cached value
only at keys the fetch does not supply (last-write-wins on overlap, cached
data fills the gaps of the new frame); repeating the fetch-merge with the
same fetched data leaves the cached series unchanged. -/
theorem fetch_merge_new_data_wins :
    (∀ cache fetched : ConsumptionSeries, ∀ k : Int,
      seriesLookup (merge_fetched_into_cache cache fetched) k =
        optOr (seriesLookup fetched k) (seriesLookup cache k))
    ∧ (∀ cache fetched : ConsumptionSeries, ∀ k : Int,
        seriesLookup (merge_fetched_into_cache (merge_fetched_into_cache cache fetched) fetched) k =
          seriesLookup (merge_fetched_into_cache cache fetched) k) := by
  have main : ∀ cache fetched : ConsumptionSeries, ∀ k : Int,
      seriesLookup (merge_fetched_into_cache cache fetched) k =
        optOr (seriesLookup fetched k) (seriesLookup cache k) := by
    intro cache fetched k
    exact combine_first_lookup fetched cache k
  refine ⟨main, ?_⟩
  intro cache fetched k
  rw [main, main]
  cases seriesLookup fetched k <;> rfl

/-- Claim C9 counterexample: a report page missing the error span makes
the hourly parser raise (AttributeError from `None.text_content()`), and a
daily report page with an empty error message and no data table makes the
daily parser raise (`table.findall` on `None`) - so an empty or malformed
page can crash the caller. -/
theorem parse_consumptions_crash_cex :
    parse_hourly_consumptions { errSpan := none, table := some [("1", (1 : ℚ))] } =
        Except.error ()
    ∧ parse_daily_consumptions { errSpan := some "", table := none } = Except.error () := by
  exact ⟨rfl, rfl⟩

/-- Claim C9 (amended): on pages that carry the portal error span, the
hourly parser yields an empty series when the table is absent and the
parsed rows otherwise, and the daily parser yields an empty series
whenever the error message is non-empty; but a page missing the error
span raises in both parsers, and a daily page with an empty error message
and no data table raises - malformed HTML propagates an exception to the
caller rather than yielding an empty series. -/
theorem parse_consumptions_error_pages :
    (∀ msg : String, parse_hourly_consumptions { errSpan := some msg, table := none } =
        Except.ok [])
    ∧ (∀ msg : String, ∀ rows : List (String × ℚ),
        parse_hourly_consumptions { errSpan := some msg, table := some rows } =
          Except.ok rows)
    ∧ (∀ msg : String, ∀ t : Option (List (String × ℚ)), msg ≠ "" →
        parse_daily_consumptions { errSpan := some msg, table := t } = Except.ok [])
    ∧ (∀ rows : List (String × ℚ),
        parse_daily_consumptions { errSpan := some "", table := some rows } =
          Except.ok rows)
    ∧ (∀ t : Option (List (String × ℚ)),
        parse_hourly_consumptions { errSpan := none, table := t } = Except.error ())
    ∧ (∀ t : Option (List (String × ℚ)),
        parse_daily_consumptions { errSpan := none, table := t } = Except.error ())
    ∧ (parse_daily_consumptions { errSpan := some "", table := none } = Except.error ()) := by
  refine ⟨fun msg => rfl, fun msg rows => rfl, ?_, fun rows => ?_, fun t => rfl, fun t => rfl, rfl⟩
  · intro msg t h
    simp [parse_daily_consumptions, parse_consumptions_error, h]
  · simp [parse_daily_consumptions, parse_consumptions_error]

theorem extractSig_eq_none (h : List String)
    (hall : ∀ u ∈ h, strContains u "Sig=" = false) : extractSig h = none := by
  induction h with
  | nil => rfl
  | cons u rest ih =>
      have hu : strContains u "Sig=" = false := hall u (by simp)
      simp only [extractSig, hu, Bool.false_eq_true, if_false]
      exact ih (fun v hv => hall v (by simp [hv]))

/-- Claim C4 counterexample: on a redirect history with two hops carrying
`Sig=`, the code extracts from the first such hop and takes the last
`&`-separated segment after `Sig=`, yielding `T=1`, while the claimed
rule (last hop, the value of the parameter) yields `BBB`. -/
theorem extract_sig_first_hop_cex :
    extractSig ["u?Sig=AAA&T=1", "v?Sig=BBB"] = some "T=1"
    ∧ specExtractSig ["u?Sig=AAA&T=1", "v?Sig=BBB"] = some "BBB"
    ∧ extractSig ["u?Sig=AAA&T=1", "v?Sig=BBB"] ≠
        specExtractSig ["u?Sig=AAA&T=1", "v?Sig=BBB"] := by
  exact ⟨by decide, by decide, by decide⟩

/-- Claim C4 (amended): the signature is taken from the first redirect
hop whose URL contains `Sig=`, and the extracted value is the last
`&`-separated segment of the text after the last `Sig=` (which is the
parameter value exactly when `Sig` is the final query parameter); when no
hop contains `Sig=`, the flow fails with `USMSLoginError` rather than
crashing or proceeding. -/
theorem authenticate_sig_first_hop :
    (∀ h : List String, (∀ u ∈ h, strContains u "Sig=" = false) →
      authenticate_sig h = Except.error ())
    ∧ (∀ pre : List String, ∀ u : String, ∀ post : List String,
        (∀ v ∈ pre, strContains v "Sig=" = false) →
        strContains u "Sig=" = true →
        extractSig (pre ++ u :: post) = some (urlSig u))
    ∧ urlSig "u?x=1&Sig=AAA" = "AAA"
    ∧ urlSig "u?Sig=AAA&T=1" = "T=1" := by
  refine ⟨?_, ?_, by decide, by decide⟩
  · intro h hall
    rw [authenticate_sig, extractSig_eq_none h hall]
  · intro pre u post hpre hu
    induction pre with
    | nil => simp [extractSig, hu]
    | cons v rest ih =>
        have hv : strContains v "Sig=" = false := hpre v (by simp)
        simp only [List.cons_append, extractSig, hv, Bool.false_eq_true, if_false]
        exact ih (fun w hw => hpre w (by simp [hw]))

/-- Claim C3: under the retry policy, a request whose first three attempts
all come back expired surfaces a login error instead of a fourth attempt
(the outcome depends only on the responses to attempts 0, 1 and 2, and a
successful outcome always reports at most 3 attempts made).
Settled against the retry policy modelled from the specification, since
the retry loop is not among the repository source files here. -/
theorem session_retry_cap :
    (∀ responses : Nat → HTTPResponse,
      is_expired_sync (responses 0) = true →
      is_expired_sync (responses 1) = true →
      is_expired_sync (responses 2) = true →
      session_request responses = Except.error ())
    ∧ (∀ responses : Nat → HTTPResponse, ∀ r : HTTPResponse, ∀ n : Nat,
        session_request responses = Except.ok (r, n) → n ≤ attemptBudget)
    ∧ (∀ responses1 responses2 : Nat → HTTPResponse,
        responses1 0 = responses2 0 → responses1 1 = responses2 1 →
        responses1 2 = responses2 2 →
        session_request responses1 = session_request responses2) := by
  refine ⟨?_, ?_, ?_⟩
  · intro rs h0 h1 h2
    simp [session_request, attemptBudget, run_with_retry, h0, h1, h2]
  · intro rs r n h
    by_cases e0 : is_expired_sync (rs 0) <;>
      by_cases e1 : is_expired_sync (rs 1) <;>
      by_cases e2 : is_expired_sync (rs 2) <;>
      simp_all [session_request, attemptBudget, run_with_retry] <;> omega
  · intro rs1 rs2 h0 h1 h2
    simp [session_request, attemptBudget, run_with_retry, h0, h1, h2]

theorem findLoop_pos (o : ℚ → Bool) (n : Nat) (d s : ℚ) (h : o d = true) :
    findLoop o (n + 1) d s = findLoop o n (d - 2 * s) (2 * s) := by
  simp [findLoop, h]

theorem findLoop_base (o : ℚ → Bool) (n : Nat) (d : ℚ) (h : o d = false) :
    findLoop o (n + 1) d 1 = some (d + 1) := by
  simp [findLoop, h]

theorem findLoop_shrink (o : ℚ → Bool) (n : Nat) (d s : ℚ) (h : o d = false) (hs : s ≠ 1) :
    findLoop o (n + 1) d s = findLoop o n (d + s) (s / 4) := by
  simp [findLoop, h, hs]

theorem thresholdData_true {E d : ℚ} : thresholdData E d = true ↔ E ≤ d := by
  simp [thresholdData]

theorem thresholdData_false {E d : ℚ} : thresholdData E d = false ↔ d < E := by
  simp [thresholdData]

theorem findLoop_bracket (E : ℚ) (k : Nat) :
    ∀ d : ℚ, d < E → E ≤ d + 2 ^ k →
      ∃ n r, findLoop (thresholdData E) n d ((2 : ℚ) ^ k) = some r := by
  induction k with
  | zero =>
      intro d hd _
      refine ⟨1, d + 1, ?_⟩
      rw [pow_zero]
      exact findLoop_base _ 0 d (thresholdData_false.mpr hd)
  | succ j ih =>
      intro d hd hE
      have h2j : (1 : ℚ) ≤ 2 ^ j := one_le_pow₀ (by norm_num)
      have hs1 : ((2 : ℚ) ^ (j + 1)) ≠ 1 := by
        have h2 : (1 : ℚ) < 2 ^ (j + 1) := by
          rw [pow_succ]; nlinarith
        exact (ne_of_lt h2).symm
      have e1 : d + 2 ^ (j + 1) - 2 * ((2 : ℚ) ^ (j + 1) / 4) = d + 2 ^ j := by
        rw [pow_succ]; ring
      have e2 : 2 * ((2 : ℚ) ^ (j + 1) / 4) = 2 ^ j := by
        rw [pow_succ]; ring
      by_cases hmid : d + 2 ^ j < E
      · obtain ⟨n, r, hn⟩ := ih (d + 2 ^ j) hmid (by rw [pow_succ] at hE; linarith)
        refine ⟨n + 2, r, ?_⟩
        rw [findLoop_shrink _ _ _ _ (thresholdData_false.mpr hd) hs1]
        rw [findLoop_pos _ _ _ _ (thresholdData_true.mpr hE)]
        rw [e1, e2]
        exact hn
      · have hmid' : E ≤ d + 2 ^ j := not_lt.mp hmid
        obtain ⟨n, r, hn⟩ := ih d hd hmid'
        refine ⟨n + 5, r, ?_⟩
        rw [findLoop_shrink _ _ _ _ (thresholdData_false.mpr hd) hs1]
        rw [findLoop_pos _ _ _ _ (thresholdData_true.mpr hE)]
        rw [e1, e2]
        rw [findLoop_pos _ _ _ _ (thresholdData_true.mpr hmid')]
        have e3 : d + (2 : ℚ) ^ j - 2 * 2 ^ j = d - 2 ^ j := by ring
        have e4 : (2 : ℚ) * 2 ^ j = 2 ^ (j + 1) := by rw [pow_succ]; ring
        rw [e3, e4]
        have hdj : d - (2 : ℚ) ^ j < E :=
          lt_of_le_of_lt (sub_le_self d (by positivity)) hd
        rw [findLoop_shrink _ _ _ _ (thresholdData_false.mpr hdj) hs1]
        have e5 : d - (2 : ℚ) ^ j + 2 ^ (j + 1) = d + 2 ^ j := by
          rw [pow_succ]; ring
        rw [e5]
        rw [findLoop_pos _ _ _ _ (thresholdData_true.mpr hmid')]
        have e6 : d + (2 : ℚ) ^ j - 2 * (2 ^ (j + 1) / 4) = d := by
          rw [pow_succ]; ring
        rw [e6, e2]
        exact hn

theorem findLoop_growth (E : ℚ) (m : Nat) :
    ∀ d : ℚ, ∀ k : Nat, d < E + m →
      (d < E → (k = 0 ∨ E ≤ d + 2 ^ k)) →
      ∃ n r, findLoop (thresholdData E) n d ((2 : ℚ) ^ k) = some r := by
  induction m with
  | zero =>
      intro d k hdm hinv
      have hd : d < E := by simpa using hdm
      rcases hinv hd with hk | hEk
      · subst hk
        exact ⟨1, d + 1, by rw [pow_zero]; exact findLoop_base _ 0 d (thresholdData_false.mpr hd)⟩
      · exact findLoop_bracket E k d hd hEk
  | succ j ih =>
      intro d k hdm hinv
      by_cases hd : d < E
      · rcases hinv hd with hk | hEk
        · subst hk
          exact ⟨1, d + 1, by rw [pow_zero]; exact findLoop_base _ 0 d (thresholdData_false.mpr hd)⟩
        · exact findLoop_bracket E k d hd hEk
      · have hd' : E ≤ d := not_lt.mp hd
        have h2k : (2 : ℚ) ≤ 2 ^ (k + 1) := by
          calc (2 : ℚ) = 2 ^ 1 := (pow_one 2).symm
          _ ≤ 2 ^ (k + 1) := pow_le_pow_right₀ (by norm_num) (by omega)
        have hbound : d - 2 ^ (k + 1) < E + j := by
          push_cast at hdm ⊢
          linarith
        have hinv2 : d - 2 ^ (k + 1) < E → ((k + 1 = 0) ∨ E ≤ (d - 2 ^ (k + 1)) + 2 ^ (k + 1)) := by
          intro _
          right
          rw [sub_add_cancel]
          exact hd'
        obtain ⟨n, r, hn⟩ := ih (d - 2 ^ (k + 1)) (k + 1) hbound hinv2
        refine ⟨n + 1, r, ?_⟩
        rw [findLoop_pos _ _ _ _ (thresholdData_true.mpr hd')]
        have e7 : d - 2 * (2 : ℚ) ^ k = d - 2 ^ (k + 1) := by rw [pow_succ]; ring
        have e4 : (2 : ℚ) * 2 ^ k = 2 ^ (k + 1) := by rw [pow_succ]; ring
        rw [e7, e4]
        exact hn

theorem findLoop_terminates (E start : ℚ) :
    ∃ fuel r, findLoop (thresholdData E) fuel start 1 = some r := by
  obtain ⟨m, hm⟩ := exists_nat_gt (start - E)
  have h1 : start < E + m := by linarith
  have h := findLoop_growth E m start 0 h1 (fun _ => Or.inl rfl)
  simpa [pow_zero] using h

/-- Claim C5: the earliest-date finder starts from the earliest cached
date (or today when the cache is empty) with step 1; on a non-empty probe
it doubles the step and moves the probe into the past by the new step; on
an empty probe with step 1 it returns probe plus step; on an empty probe
with a larger step it undoes the jump and shrinks the step by a factor of
4; when the portal has data exactly from some day onward, the search
terminates; and the result is recorded on the meter so that a subsequent
call returns the recorded date without searching. -/
theorem find_earliest_consumption_date_spec :
    (∀ o : ℚ → Bool, ∀ fuel : Nat, ∀ d s : ℚ, o d = true →
      findLoop o (fuel + 1) d s = findLoop o fuel (d - 2 * s) (2 * s))
    ∧ (∀ o : ℚ → Bool, ∀ fuel : Nat, ∀ d : ℚ, o d = false →
        findLoop o (fuel + 1) d 1 = some (d + 1))
    ∧ (∀ o : ℚ → Bool, ∀ fuel : Nat, ∀ d s : ℚ, o d = false → s ≠ 1 →
        findLoop o (fuel + 1) d s = findLoop o fuel (d + s) (s / 4))
    ∧ (∀ o : ℚ → Bool, ∀ fuel : Nat, ∀ m : MeterSearchState, ∀ today d : ℚ,
        m.earliestConsumptionDate = some d →
        find_earliest_consumption_date o fuel m today = some (d, m))
    ∧ (∀ o : ℚ → Bool, ∀ fuel : Nat, ∀ m m' : MeterSearchState, ∀ today d : ℚ,
        find_earliest_consumption_date o fuel m today = some (d, m') →
        m'.earliestConsumptionDate = some d)
    ∧ (∀ o : ℚ → Bool, ∀ fuel : Nat, ∀ today : ℚ, ∀ c : Option ℚ,
        find_earliest_consumption_date o fuel ⟨none, c⟩ today =
          (findLoop o fuel (c.getD today) 1).map
            (fun d => (d, MeterSearchState.mk (some d) c)))
    ∧ (∀ E start : ℚ,
        ∃ fuel r, findLoop (thresholdData E) fuel start 1 = some r) := by
  refine ⟨findLoop_pos, findLoop_base, findLoop_shrink, ?_, ?_, ?_, findLoop_terminates⟩
  · intro o fuel m today d h
    simp [find_earliest_consumption_date, h]
  · intro o fuel m m' today d h
    rcases hme : m.earliestConsumptionDate with _ | e
    · simp only [find_earliest_consumption_date, hme] at h
      rcases hloop : findLoop o fuel
          (match m.hourlyMinDate with | none => today | some d => d) 1 with _ | r
      · rw [hloop] at h
        exact absurd h (by simp)
      · rw [hloop] at h
        have h2 : r = d ∧ { m with earliestConsumptionDate := some r } = m' := by
          simpa using h
        rw [← h2.2, ← h2.1]
    · simp only [find_earliest_consumption_date, hme] at h
      have h2 : e = d ∧ m = m' := by simpa using h
      rw [← h2.2, hme, h2.1]
  · intro o fuel today c
    rcases c with _ | cmin
    · rcases hloop : findLoop o fuel today 1 with _ | r <;>
        simp_all [find_earliest_consumption_date, Option.getD]
    · rcases hloop : findLoop o fuel cmin 1 with _ | r <;>
        simp_all [find_earliest_consumption_date, Option.getD]
